import Mathlib

/-!
Verification of the Volunteer Hub catalog application (app.py).

The application loads a list of volunteer opportunities from a JSON file,
renders a paginated 3x3 card grid (9 items per page) and a per-item detail
view, and routes between the two views with the URL query parameters
`id` and `page`.  The definitions below are a shallow embedding of the
relevant parts of app.py; line references point into that file.
-/

/-- Page size constant (app.py line 57). -/
def PAGE_SIZE : Nat := 9

/-- One volunteer listing record (app.py lines 25-33). -/
structure Opportunity where
  id : String
  title : String
  description : String
  organization_url : String
  location : String
  timeframe : String
  requirements : List String
deriving DecidableEq

/-- Error raised by `Opportunity.from_dict` when a required key is absent.
Python raises `KeyError("id")` from the subscript `d["id"]`; the spec calls
this failure `MalformedRecordError`. -/
inductive LoadError where
  | keyError (key : String)
deriving DecidableEq

/-- A JSON object from the data file, with every key optional.  The input
schema (spec section 6) declares string values for the scalar keys and an
array of strings for `requirements`, so the dictionary is embedded as a
record of optional fields of those types. -/
structure RawRecord where
  id : Option String
  title : Option String
  description : Option String
  organization_url : Option String
  location : Option String
  timeframe : Option String
  requirements : Option (List String)
deriving DecidableEq

/-- Mapping of one JSON object into an `Opportunity` (app.py lines 35-45).
`d["id"]` raises on a missing key, embedded as `Except.error`; every other
field uses `d.get(key, default)`, embedded as `Option.getD`. -/
def Opportunity.from_dict (d : RawRecord) : Except LoadError Opportunity :=
  match d.id with
  | none => Except.error (LoadError.keyError ("id"))
  | some i =>
      Except.ok
        { id := i
          title := d.title.getD ("")
          description := d.description.getD ("")
          organization_url := d.organization_url.getD ("")
          location := d.location.getD ("")
          timeframe := d.timeframe.getD ("")
          requirements := d.requirements.getD ([]) }

/-- Total page count (app.py line 59): `max(1, math.ceil(total / PAGE_SIZE))`.
`math.ceil` of the exact quotient is modelled in integer arithmetic as
ceiling division `(total + PAGE_SIZE - 1) / PAGE_SIZE`. -/
def total_pages (total : Nat) : Nat :=
  max 1 ((total + PAGE_SIZE - 1) / PAGE_SIZE)

/-- Reading a single query parameter (app.py lines 62-73): `get_all` returns
all values for the key in order and the first one is returned; when the key
is absent the default `None` is returned.  The URL query string is embedded
as an ordered list of key-value pairs. -/
def qp_get (params : List (String × String)) (name : String) : Option String :=
  match (params.filter (fun kv => kv.1 = name)).map (fun kv => kv.2) with
  | v :: _ => some v
  | [] => none

/-- A decimal digit character mapped to its value. -/
def charToDigit (c : Char) : Option Nat :=
  if 48 ≤ c.toNat ∧ c.toNat ≤ 57 then some (c.toNat - 48) else none

/-- One step of decimal parsing: accumulate a digit or fail. -/
def parseStep (acc : Option Nat) (c : Char) : Option Nat :=
  match acc, charToDigit c with
  | some a, some d => some (a * 10 + d)
  | _, _ => none

/-- Parse an all-digit character list as a natural number; the empty list
yields `some 0` and is excluded by the callers. -/
def parseDigits (cs : List Char) : Option Nat :=
  cs.foldl parseStep (some 0)

/-- Python `int(s)` on a string (app.py line 78), embedded as the core
grammar: an optional sign followed by one or more decimal digits; any other
shape fails (`None` here, an exception in Python).  Python additionally
tolerates surrounding whitespace and digit-group underscores; those inputs
do not occur in this program's own links and are outside the embedding. -/
def pyInt (s : String) : Option Int :=
  match s.data with
  | [] => none
  | c :: cs =>
      if c = '-' then
        match cs with
        | [] => none
        | _ => (parseDigits cs).map (fun n => -(n : Int))
      else if c = '+' then
        match cs with
        | [] => none
        | _ => (parseDigits cs).map (fun n => (n : Int))
      else (parseDigits (c :: cs)).map (fun n => (n : Int))

/-- The page number before clamping (app.py lines 77-80): `int(page_param)`
when the parameter is present and parses, otherwise the default `1`. -/
def parsed_page (page_param : Option String) : Int :=
  match page_param with
  | none => 1
  | some s => (pyInt s).getD 1

/-- The effective page (app.py line 81):
`current_page = max(1, min(total_pages, current_page))`. -/
def current_page (tp : Nat) (page_param : Option String) : Nat :=
  (max 1 (min (tp : Int) (parsed_page page_param))).toNat

/-- The records of the current page (app.py lines 112-113):
`start = (current_page - 1) * PAGE_SIZE; page_items = ops[start:start+PAGE_SIZE]`. -/
def page_items (ops : List Opportunity) (cp : Nat) : List Opportunity :=
  (ops.drop ((cp - 1) * PAGE_SIZE)).take PAGE_SIZE

/-- Escape of a single character, following Python `html.escape` with
`quote=True`: `&`, `<`, `>`, the double quote and the apostrophe are replaced
by entity references; every other character is kept.  `html.escape` replaces
`&` first, so the ampersands introduced by the other replacements are not
re-escaped and the whole function acts character by character. -/
def escChar (c : Char) : List Char :=
  if c = '&' then ['&', 'a', 'm', 'p', ';']
  else if c = '<' then ['&', 'l', 't', ';']
  else if c = '>' then ['&', 'g', 't', ';']
  else if c = Char.ofNat 34 then ['&', 'q', 'u', 'o', 't', ';']
  else if c = Char.ofNat 39 then ['&', '#', 'x', '2', '7', ';']
  else [c]

/-- Python `html.escape(s, quote=True)` (imported `html` module, used at
app.py lines 134 and 137-139). -/
def htmlEscape (s : String) : String :=
  String.mk ((s.data.map escChar).flatten)

/-- The card excerpt (app.py line 134):
`html.escape(op.description[:120]) + ("..." if len(op.description) > 120 else "")`. -/
def short_desc (description : String) : String :=
  htmlEscape (String.mk (description.data.take 120)) ++
    (if 120 < description.data.length then "..." else "")

/-- A decimal digit value rendered as a character. -/
def digitToChar (d : Nat) : Char :=
  match d with
  | 0 => '0'
  | 1 => '1'
  | 2 => '2'
  | 3 => '3'
  | 4 => '4'
  | 5 => '5'
  | 6 => '6'
  | 7 => '7'
  | 8 => '8'
  | _ => '9'

/-- Most-significant-first decimal digit list of `n`, with explicit fuel so
that the recursion is structural (fuel `n` suffices because `n / 10 < n`
whenever `10 ≤ n`). -/
def natDigitsFuel : Nat → Nat → List Nat
  | 0, n => [n % 10]
  | fuel + 1, n => if n < 10 then [n] else natDigitsFuel fuel (n / 10) ++ [n % 10]

/-- Most-significant-first decimal digit list of `n`. -/
def natDigits (n : Nat) : List Nat :=
  natDigitsFuel n n

/-- Python `str(n)` for a natural number (app.py lines 93 and 107 print the
clamped page, which is at least 1). -/
def pyStr (n : Nat) : String :=
  String.mk ((natDigits n).map digitToChar)

/-- The markup of one grid card (app.py lines 133-141): an anchor whose
`href` embeds the raw record id and the current page, containing the escaped
title, the excerpt and the escaped `location • timeframe` line. -/
def cardHtml (op : Opportunity) (cp : Nat) : String :=
  "<a class='vol-card' href='?id=" ++ op.id ++ "&page=" ++ pyStr cp ++ "'>" ++
  "<h3>" ++ htmlEscape op.title ++ "</h3>" ++
  "<p>" ++ short_desc op.description ++ "</p>" ++
  "<div class='vol-meta'>" ++ htmlEscape op.location ++ " • " ++
    htmlEscape op.timeframe ++ "</div>" ++
  "</a>"

/-- The rendered surface of one interaction: the detail view of a found
record, the not-found message of the detail view, or the card grid; each
carries the clamped page that its navigation controls embed. -/
inductive View where
  | detail (op : Opportunity) (backPage : Nat)
  | notFound (backPage : Nat)
  | grid (cards : List String) (page : Nat)
deriving DecidableEq

/-- One render pass (app.py lines 75-151): read the parameters, clamp the
page, and dispatch on `if selected_id:` — Python truthiness sends both an
absent `id` and an empty-string `id` to the grid branch.  The record lookup
is `next((o for o in ops if o.id == selected_id), None)` (line 88). -/
def render (ops : List Opportunity) (idParam pageParam : Option String) : View :=
  let tp := total_pages ops.length
  let cp := current_page tp pageParam
  match idParam with
  | some s =>
      if s = "" then View.grid ((page_items ops cp).map (fun op => cardHtml op cp)) cp
      else
        match ops.find? (fun o => o.id == s) with
        | some op => View.detail op cp
        | none => View.notFound cp
  | none => View.grid ((page_items ops cp).map (fun op => cardHtml op cp)) cp

/-- URL query-parameter state carried between interactions. -/
structure Params where
  id : Option String
  page : Option String
deriving DecidableEq

/-- The parameters set by activating a grid card (app.py line 136): the
card's href is `?id=<record id>&page=<clamped page>`. -/
def selectCardTarget (op : Opportunity) (cp : Nat) : Params :=
  { id := some op.id, page := some (pyStr cp) }

/-- The parameters set by the back control of the detail view (app.py lines
105-108 and 91-94): `st.query_params.clear()` then
`st.query_params.from_dict({"page": str(current_page)})`. -/
def backTarget (ops : List Opportunity) (ps : Params) : Params :=
  { id := none
    page := some (pyStr (current_page (total_pages ops.length) ps.page)) }

/-- A render pass starting from a `Params` state. -/
def renderParams (ops : List Opportunity) (ps : Params) : View :=
  render ops ps.id ps.page

/-- A plain sample record used to evaluate the theorems below. -/
def opA : Opportunity :=
  { id := "a"
    title := "Title A"
    description := "Desc A"
    organization_url := "https://example.org"
    location := "Loc A"
    timeframe := "Summer"
    requirements := ["r1"] }

/-- A sample record whose fields contain markup-significant characters. -/
def opB : Opportunity :=
  { id := "b'<x>"
    title := "T<b>"
    description := "D & E"
    organization_url := "https://example.org/b"
    location := "L<"
    timeframe := "F>"
    requirements := [] }

/-- A sample JSON object carrying only the required `id` key. -/
def rawOnlyId : RawRecord :=
  { id := some ("a")
    title := none
    description := none
    organization_url := none
    location := none
    timeframe := none
    requirements := none }

/-- A sample JSON object missing the required `id` key. -/
def rawNoId : RawRecord :=
  { id := none
    title := some ("T")
    description := none
    organization_url := none
    location := none
    timeframe := none
    requirements := none }

/-! ### Instances and helper lemmas -/

deriving instance DecidableEq for Except

/-- The page count written as integer ceiling division. -/
theorem total_pages_def (n : Nat) : total_pages n = max 1 ((n + 8) / 9) := rfl

/-- The rational ceiling of `n / 9` is ceiling division by 9. -/
theorem nat_ceil_div_nine (n : Nat) : Nat.ceil ((n : ℚ) / 9) = (n + 8) / 9 := by
  rcases Nat.eq_zero_or_pos n with h | h
  · subst h; simp
  · have hne : (n + 8) / 9 ≠ 0 := by omega
    rw [Nat.ceil_eq_iff hne]
    constructor
    · have hlt : ((n + 8) / 9 - 1) * 9 < n := by omega
      rw [lt_div_iff₀ (by norm_num : (0 : ℚ) < 9)]
      exact_mod_cast hlt
    · have hle : n ≤ (n + 8) / 9 * 9 := by omega
      rw [div_le_iff₀ (by norm_num : (0 : ℚ) < 9)]
      exact_mod_cast hle

/-- Flattening the consecutive length-`s` slices of a list recovers its
prefix of length `k * s`. -/
theorem flatten_slices {α : Type} (s : Nat) :
    ∀ (k : Nat) (l : List α),
      ((List.range k).map (fun i => (l.drop (i * s)).take s)).flatten = l.take (k * s) := by
  intro k
  induction k with
  | zero => intro l; simp
  | succ k ih =>
      intro l
      rw [List.range_succ_eq_map]
      simp only [List.map_cons, List.map_map, List.flatten_cons, Nat.zero_mul, List.drop_zero]
      have hmap : (List.range k).map ((fun i => (l.drop (i * s)).take s) ∘ Nat.succ)
          = (List.range k).map (fun i => (((l.drop s).drop (i * s)).take s)) := by
        apply List.map_congr_left
        intro i _
        simp only [Function.comp_apply]
        rw [List.drop_drop]
        congr 2
        rw [Nat.succ_mul, Nat.add_comm]
      rw [hmap, ih (l.drop s), ← List.take_add]
      congr 1
      ring

/-- The clamped page as an integer: exactly `max 1 (min total_pages page)`. -/
theorem current_page_int (tp : Nat) (pp : Option String) :
    (current_page tp pp : Int) = max 1 (min (tp : Int) (parsed_page pp)) := by
  unfold current_page
  rw [Int.toNat_of_nonneg]
  exact le_trans zero_le_one (le_max_left 1 _)

/-- The clamped page lies in `[1, tp]` whenever `1 ≤ tp`. -/
theorem current_page_mem (tp : Nat) (h : 1 ≤ tp) (pp : Option String) :
    1 ≤ current_page tp pp ∧ current_page tp pp ≤ tp := by
  have hc := current_page_int tp pp
  omega

/-- A digit value below 10 is printed as a digit character that parses back
to the same value and is distinct from the sign characters. -/
theorem digitToChar_spec (d : Nat) (h : d < 10) :
    charToDigit (digitToChar d) = some d ∧ digitToChar d ≠ '-' ∧ digitToChar d ≠ '+' := by
  interval_cases d <;> exact ⟨by decide, by decide, by decide⟩

/-- The fuelled digit expansion does not depend on the fuel once it covers `n`. -/
theorem natDigitsFuel_irrel :
    ∀ f g n : Nat, n ≤ f → n ≤ g → natDigitsFuel f n = natDigitsFuel g n := by
  intro f
  induction f with
  | zero =>
      intro g n hf hg
      have hn : n = 0 := by omega
      subst hn
      cases g with
      | zero => rfl
      | succ g => simp [natDigitsFuel]
  | succ f ih =>
      intro g n hf hg
      cases g with
      | zero =>
          have hn : n = 0 := by omega
          subst hn
          simp [natDigitsFuel]
      | succ g =>
          simp only [natDigitsFuel]
          split
          · rfl
          · have hlt : n / 10 ≤ f := by omega
            have hlt2 : n / 10 ≤ g := by omega
            rw [ih g (n / 10) hlt hlt2]

/-- The defining recurrence of `natDigits`. -/
theorem natDigits_eq (n : Nat) :
    natDigits n = if n < 10 then [n] else natDigits (n / 10) ++ [n % 10] := by
  unfold natDigits
  cases n with
  | zero => simp [natDigitsFuel]
  | succ m =>
      simp only [natDigitsFuel]
      split
      · rfl
      · congr 1
        apply natDigitsFuel_irrel
        · omega
        · omega

/-- Every entry of `natDigits n` is a digit value. -/
theorem natDigits_lt (n : Nat) : ∀ d ∈ natDigits n, d < 10 := by
  induction n using Nat.strong_induction_on with
  | _ n ih =>
      rw [natDigits_eq]
      split
      · next h => intro d hd; simp only [List.mem_singleton] at hd; omega
      · next h =>
          intro d hd
          rw [List.mem_append] at hd
          rcases hd with hd | hd
          · exact ih (n / 10) (by omega) d hd
          · simp only [List.mem_singleton] at hd; omega

/-- The digit list of a number is never empty. -/
theorem natDigits_ne_nil (n : Nat) : natDigits n ≠ [] := by
  rw [natDigits_eq]
  split <;> simp

/-- Folding the multiply-and-add step over `natDigits n` evaluates to `n`. -/
theorem natDigits_foldl (n : Nat) :
    ∀ a : Nat, (natDigits n).foldl (fun x e => x * 10 + e) a
      = a * 10 ^ (natDigits n).length + n := by
  induction n using Nat.strong_induction_on with
  | _ n ih =>
      intro a
      rw [natDigits_eq]
      split
      · next h => simp
      · next h =>
          rw [List.foldl_append, ih (n / 10) (by omega) a, List.length_append]
          simp only [List.foldl_cons, List.foldl_nil, List.length_singleton]
          have hm : n / 10 * 10 + n % 10 = n := by omega
          calc (a * 10 ^ (natDigits (n / 10)).length + n / 10) * 10 + n % 10
              = a * (10 ^ (natDigits (n / 10)).length * 10) + (n / 10 * 10 + n % 10) := by
                ring
            _ = a * 10 ^ ((natDigits (n / 10)).length + 1) + n := by rw [hm, pow_succ]

/-- Parsing the digit characters of a digit-value list folds to its value. -/
theorem foldl_parseStep (ds : List Nat) (h : ∀ d ∈ ds, d < 10) :
    ∀ a : Nat, (ds.map digitToChar).foldl parseStep (some a)
      = some (ds.foldl (fun x e => x * 10 + e) a) := by
  induction ds with
  | nil => intro a; simp
  | cons d ds ih =>
      intro a
      simp only [List.map_cons, List.foldl_cons]
      have hd : d < 10 := h d (by simp)
      have hps : parseStep (some a) (digitToChar d) = some (a * 10 + d) := by
        unfold parseStep
        rw [(digitToChar_spec d hd).1]
      rw [hps]
      exact ih (fun e he => h e (by simp [he])) (a * 10 + d)

/-- Round trip: Python `int(str(n))` recovers `n`. -/
theorem pyInt_pyStr (n : Nat) : pyInt (pyStr n) = some (n : Int) := by
  obtain ⟨d, ds, hds⟩ : ∃ d ds, natDigits n = d :: ds := by
    cases hnd : natDigits n with
    | nil => exact absurd hnd (natDigits_ne_nil n)
    | cons d ds => exact ⟨d, ds, rfl⟩
  have hd : d < 10 := natDigits_lt n d (by rw [hds]; simp)
  have hparse : parseDigits ((natDigits n).map digitToChar) = some n := by
    unfold parseDigits
    rw [foldl_parseStep (natDigits n) (natDigits_lt n) 0]
    have := natDigits_foldl n 0
    rw [this]
    simp
  unfold pyInt pyStr
  simp only [hds, List.map_cons]
  rw [if_neg, if_neg]
  · rw [← List.map_cons, ← hds, hparse]
    rfl
  · exact (digitToChar_spec d hd).2.2
  · exact (digitToChar_spec d hd).2.1

/-- Printing then reading the page parameter is the identity on pages that
are already in range. -/
theorem current_page_pyStr (tp P : Nat) (h1 : 1 ≤ P) (h2 : P ≤ tp) :
    current_page tp (some (pyStr P)) = P := by
  have hp : parsed_page (some (pyStr P)) = (P : Int) := by
    simp [parsed_page, pyInt_pyStr]
  have hc := current_page_int tp (some (pyStr P))
  rw [hp] at hc
  omega

/-- No escaped character expansion contains a raw angle bracket. -/
theorem escChar_no_angle (c : Char) : ('<') ∉ escChar c ∧ ('>') ∉ escChar c := by
  unfold escChar
  split_ifs with h1 h2 h3 h4 h5
  · exact ⟨by decide, by decide⟩
  · exact ⟨by decide, by decide⟩
  · exact ⟨by decide, by decide⟩
  · exact ⟨by decide, by decide⟩
  · exact ⟨by decide, by decide⟩
  · constructor <;> simp_all [eq_comm]

/-- The escaped form of any string contains no raw angle bracket, so
markup-significant characters display literally. -/
theorem htmlEscape_no_angle (s : String) :
    ('<') ∉ (htmlEscape s).data ∧ ('>') ∉ (htmlEscape s).data := by
  unfold htmlEscape
  constructor <;>
  · intro hmem
    rw [List.mem_flatten] at hmem
    obtain ⟨l, hl, hc⟩ := hmem
    rw [List.mem_map] at hl
    obtain ⟨c, _, rfl⟩ := hl
    first
    | exact (escChar_no_angle c).1 hc
    | exact (escChar_no_angle c).2 hc

/-! ### Claim theorems -/

/-- Claim C1: for every loaded record list, `page_items` at a clamped page
`cp ≥ 1` equals the contiguous slice `records[(cp-1)*9 : cp*9]`; the
concatenation of `page_items` over pages `1..total_pages` in order
reproduces the record list exactly (no duplicates, no omissions); and the
last page holds `n % 9` items — `9` when `n` is divisible by 9 and positive,
`0` only when `n = 0`. -/
theorem page_items_partition (ops : List Opportunity) :
    (∀ cp, 1 ≤ cp →
        page_items ops cp = (ops.take (cp * PAGE_SIZE)).drop ((cp - 1) * PAGE_SIZE)) ∧
    ((List.range' 1 (total_pages ops.length)).map (page_items ops)).flatten = ops ∧
    (page_items ops (total_pages ops.length)).length =
      (if ops.length = 0 then 0
       else if ops.length % PAGE_SIZE = 0 then PAGE_SIZE
       else ops.length % PAGE_SIZE) := by
  refine ⟨?_, ?_, ?_⟩
  · intro cp hcp
    unfold page_items
    rw [List.drop_take]
    congr 1
    simp only [PAGE_SIZE]
    omega
  · rw [List.range'_eq_map_range, List.map_map]
    have hmap : (page_items ops ∘ fun x => 1 + x)
        = fun i => (ops.drop (i * PAGE_SIZE)).take PAGE_SIZE := by
      funext i
      simp only [Function.comp_apply, page_items, Nat.add_sub_cancel_left]
    rw [hmap, flatten_slices PAGE_SIZE (total_pages ops.length) ops]
    apply List.take_of_length_le
    rw [total_pages_def]
    simp only [PAGE_SIZE]
    omega
  · unfold page_items
    rw [List.length_take, List.length_drop, total_pages_def]
    simp only [PAGE_SIZE]
    split_ifs <;> omega

/-- Witness for C1: the slice form of the first page of a one-record list. -/
theorem page_items_partition_witness :
    page_items ([opA]) 1
      = (([opA] : List Opportunity).take (1 * PAGE_SIZE)).drop ((1 - 1) * PAGE_SIZE) :=
  (page_items_partition ([opA])).1 1 (by decide)

/-- Claim C2: for every record count `n ≥ 0` the computed total page count
equals `max 1 ⌈n / 9⌉`, and in particular is at least 1 even for zero
records. -/
theorem total_pages_ceil (n : Nat) :
    total_pages n = max 1 (Nat.ceil ((n : ℚ) / 9)) ∧ 1 ≤ total_pages n := by
  rw [nat_ceil_div_nine, total_pages_def]
  omega

/-- Claim C3: for every integer page value obtained from the URL (any sign,
any magnitude), the effective page is `max 1 (min total_pages page)`, hence
always lies in `[1, total_pages]`; the correction is the value of a total
function, so it is silent and surfaces no error. -/
theorem current_page_clamp (n : Nat) (pp : Option String) :
    (current_page (total_pages n) pp : Int)
        = max 1 (min ((total_pages n : Nat) : Int) (parsed_page pp)) ∧
    1 ≤ current_page (total_pages n) pp ∧
    current_page (total_pages n) pp ≤ total_pages n := by
  have hb := current_page_mem (total_pages n) (by rw [total_pages_def]; omega) pp
  exact ⟨current_page_int _ _, hb.1, hb.2⟩

/-- Claim C4: resolving the `page` query parameter is a total function
(never raises): when the parameter has several values the first is used,
the value is parsed as an integer, and on parse failure or absence the page
defaults to 1. -/
theorem page_param_resolution (ps1 ps2 : List (String × String)) (v : String) (s : String) :
    ((∀ kv ∈ ps1, kv.1 ≠ "page") →
        qp_get (ps1 ++ ("page", v) :: ps2) ("page") = some v) ∧
    parsed_page none = 1 ∧
    (pyInt s = none → parsed_page (some s) = 1) ∧
    (∀ k : Int, pyInt s = some k → parsed_page (some s) = k) := by
  refine ⟨?_, rfl, ?_, ?_⟩
  · intro h
    unfold qp_get
    rw [List.filter_append]
    have h1 : ps1.filter (fun kv => kv.1 = "page") = [] := by
      rw [List.filter_eq_nil_iff]
      intro kv hkv
      simpa using h kv hkv
    rw [h1, List.nil_append, List.filter_cons_of_pos (by simp)]
    rfl
  · intro h
    simp [parsed_page, h]
  · intro k h
    simp [parsed_page, h]

/-- Witness for C4: first-of-several values, a non-numeric value and a
negative value on concrete parameter lists. -/
theorem page_param_resolution_witness :
    qp_get ([("id", "a")] ++ ("page", "2") :: [("page", "9")]) ("page") = some ("2") ∧
    parsed_page (some ("abc")) = 1 ∧
    parsed_page (some ("-3")) = -3 :=
  ⟨(page_param_resolution ([("id", "a")]) ([("page", "9")]) ("2") ("abc")).1 (by decide),
   (page_param_resolution ([]) ([]) ("") ("abc")).2.2.1 (by decide),
   (page_param_resolution ([]) ([]) ("") ("-3")).2.2.2 (-3) (by decide)⟩

/-- Claim C5: the card excerpt is the (escaped) first 120 characters of the
description followed by the ellipsis marker exactly when the description
exceeds 120 characters; a description of at most 120 characters is rendered
whole with no marker appended. -/
theorem short_desc_truncation (d : String) :
    (d.data.length ≤ 120 → short_desc d = htmlEscape d) ∧
    (120 < d.data.length →
        short_desc d = htmlEscape (String.mk (d.data.take 120)) ++ "...") := by
  constructor
  · intro h
    unfold short_desc
    rw [if_neg (by omega), List.take_of_length_le h, String.append_empty]
  · intro h
    unfold short_desc
    rw [if_pos h]

set_option maxRecDepth 4000 in
/-- Witness for C5: a 150-character description is cut to its first 120
characters plus the marker; a 50-character one is rendered whole with no
marker. -/
theorem short_desc_truncation_witness :
    short_desc (String.mk (List.replicate 150 'x'))
        = htmlEscape (String.mk ((String.mk (List.replicate 150 'x')).data.take 120)) ++ "..." ∧
    short_desc (String.mk (List.replicate 50 'y'))
        = htmlEscape (String.mk (List.replicate 50 'y')) :=
  ⟨(short_desc_truncation (String.mk (List.replicate 150 'x'))).2 (by decide),
   (short_desc_truncation (String.mk (List.replicate 50 'y'))).1 (by decide)⟩

/-- Claim C6: the grid card embeds the title, location, timeframe and the
description excerpt in escaped form, the description being truncated on the
raw string first and the truncated text escaped afterwards; escaped text
contains no raw angle bracket, so markup-significant characters display
literally. -/
theorem card_fields_escaped (op : Opportunity) (cp : Nat) :
    cardHtml op cp =
      "<a class='vol-card' href='?id=" ++ op.id ++ "&page=" ++ pyStr cp ++ "'>" ++
      "<h3>" ++ htmlEscape op.title ++ "</h3>" ++
      "<p>" ++ (htmlEscape (String.mk (op.description.data.take 120)) ++
        (if 120 < op.description.data.length then "..." else "")) ++ "</p>" ++
      "<div class='vol-meta'>" ++ htmlEscape op.location ++ " • " ++
        htmlEscape op.timeframe ++ "</div>" ++
      "</a>" ∧
    (∀ s : String, ('<') ∉ (htmlEscape s).data ∧ ('>') ∉ (htmlEscape s).data) :=
  ⟨rfl, htmlEscape_no_angle⟩

/-- Witness for C6: angle brackets of a concrete title never reach the
markup unescaped. -/
theorem card_fields_escaped_witness :
    ('<') ∉ (htmlEscape ("<b>hi</b>")).data ∧ ('>') ∉ (htmlEscape ("<b>hi</b>")).data :=
  (card_fields_escaped opA 1).2 ("<b>hi</b>")

/-- Claim C7: mapping a JSON object into an `Opportunity` applies the
documented defaults (empty string, empty list) for every missing optional
key, and fails with the malformed-record error when the required `id` key
is absent, producing no record. -/
theorem from_dict_spec (d : RawRecord) :
    (d.id = none → Opportunity.from_dict d = Except.error (LoadError.keyError ("id"))) ∧
    (∀ i, d.id = some i →
        ∃ op, Opportunity.from_dict d = Except.ok op ∧ op.id = i ∧
          (d.title = none → op.title = "") ∧
          (d.description = none → op.description = "") ∧
          (d.organization_url = none → op.organization_url = "") ∧
          (d.location = none → op.location = "") ∧
          (d.timeframe = none → op.timeframe = "") ∧
          (d.requirements = none → op.requirements = [])) := by
  constructor
  · intro h
    unfold Opportunity.from_dict
    rw [h]
  · intro i h
    unfold Opportunity.from_dict
    rw [h]
    refine ⟨_, rfl, rfl, ?_, ?_, ?_, ?_, ?_, ?_⟩ <;> (intro hn; rw [hn]; rfl)

/-- Witness for C7: a record with only `id` receives every default, and a
record without `id` is rejected. -/
theorem from_dict_spec_witness :
    Opportunity.from_dict rawNoId = Except.error (LoadError.keyError ("id")) ∧
    (∃ op, Opportunity.from_dict rawOnlyId = Except.ok op ∧ op.id = "a" ∧
      (rawOnlyId.title = none → op.title = "") ∧
      (rawOnlyId.description = none → op.description = "") ∧
      (rawOnlyId.organization_url = none → op.organization_url = "") ∧
      (rawOnlyId.location = none → op.location = "") ∧
      (rawOnlyId.timeframe = none → op.timeframe = "") ∧
      (rawOnlyId.requirements = none → op.requirements = [])) :=
  ⟨(from_dict_spec rawNoId).1 (by rfl), (from_dict_spec rawOnlyId).2 ("a") (by rfl)⟩

/-- Claim C8: when the `id` parameter references no loaded record, the
render pass produces the visible not-found view — a value, not an exception
— and the page that its back control carries (the clamped current page) is
valid: it lies within `[1, total_pages]`. -/
theorem unknown_id_not_found (ops : List Opportunity) (s : String) (pp : Option String)
    (hs : s ≠ "") (hmiss : ∀ op ∈ ops, op.id ≠ s) :
    render ops (some s) pp
        = View.notFound (current_page (total_pages ops.length) pp) ∧
    1 ≤ current_page (total_pages ops.length) pp ∧
    current_page (total_pages ops.length) pp ≤ total_pages ops.length := by
  have hfind : ops.find? (fun o => o.id == s) = none := by
    rw [List.find?_eq_none]
    intro op hop
    simpa using hmiss op hop
  have hb := current_page_mem (total_pages ops.length) (by rw [total_pages_def]; omega) pp
  refine ⟨?_, hb.1, hb.2⟩
  simp only [render]
  rw [if_neg hs, hfind]

/-- Witness for C8: a concrete catalog with one record and an unknown id. -/
theorem unknown_id_not_found_witness :
    render ([opA]) (some ("zzz")) (some ("7"))
        = View.notFound (current_page (total_pages ([opA] : List Opportunity).length) (some ("7"))) ∧
    1 ≤ current_page (total_pages ([opA] : List Opportunity).length) (some ("7")) ∧
    current_page (total_pages ([opA] : List Opportunity).length) (some ("7"))
        ≤ total_pages ([opA] : List Opportunity).length :=
  unknown_id_not_found ([opA]) ("zzz") (some ("7")) (by decide) (by decide)

/-- Claim C9: selecting the card of a record shown on clamped page `P`
writes `id = X, page = P` to the URL; the subsequent back action clears
`id` and restores `page = P`; and the render pass after the back action is
the grid of page `P` — the same list view as before the selection. -/
theorem card_back_roundtrip (ops : List Opportunity) (P : Nat) (op : Opportunity)
    (h1 : 1 ≤ P) (h2 : P ≤ total_pages ops.length) (_hop : op ∈ page_items ops P) :
    selectCardTarget op P = { id := some op.id, page := some (pyStr P) } ∧
    backTarget ops (selectCardTarget op P) = { id := none, page := some (pyStr P) } ∧
    renderParams ops (backTarget ops (selectCardTarget op P))
        = View.grid ((page_items ops P).map (fun o => cardHtml o P)) P ∧
    renderParams ops (backTarget ops (selectCardTarget op P))
        = renderParams ops { id := none, page := some (pyStr P) } := by
  have hcp : current_page (total_pages ops.length) (some (pyStr P)) = P :=
    current_page_pyStr (total_pages ops.length) P h1 h2
  have hb : backTarget ops (selectCardTarget op P) = { id := none, page := some (pyStr P) } := by
    unfold backTarget selectCardTarget
    rw [hcp]
  have hr : renderParams ops { id := none, page := some (pyStr P) }
      = View.grid ((page_items ops P).map (fun o => cardHtml o P)) P := by
    unfold renderParams
    simp only [render]
    rw [hcp]
  refine ⟨rfl, hb, ?_, ?_⟩
  · rw [hb, hr]
  · rw [hb]

/-- Witness for C9: the record `opA` on page 1 of a two-record catalog. -/
theorem card_back_roundtrip_witness :
    selectCardTarget opA 1 = { id := some (opA.id), page := some (pyStr 1) } ∧
    backTarget ([opA, opB]) (selectCardTarget opA 1) = { id := none, page := some (pyStr 1) } ∧
    renderParams ([opA, opB]) (backTarget ([opA, opB]) (selectCardTarget opA 1))
        = View.grid ((page_items ([opA, opB]) 1).map (fun o => cardHtml o 1)) 1 ∧
    renderParams ([opA, opB]) (backTarget ([opA, opB]) (selectCardTarget opA 1))
        = renderParams ([opA, opB]) { id := none, page := some (pyStr 1) } :=
  card_back_roundtrip ([opA, opB]) 1 opA (by decide) (by decide) (by decide)

/-- Claim C10: each card's href embeds the record's raw `id` (and the
current page) verbatim — the emitted anchor is the literal attribute prefix
followed by the unmodified id, with neither HTML escaping nor URL encoding
applied, and every character of the id (quotes, angle brackets included)
occurs unmodified in the emitted markup. -/
theorem card_href_raw_id (op : Opportunity) (cp : Nat) :
    (∃ post : String,
        cardHtml op cp
          = "<a class='vol-card' href='?id=" ++ (op.id ++ ("&page=" ++ (pyStr cp ++ post)))) ∧
    (∀ c ∈ op.id.data, c ∈ (cardHtml op cp).data) := by
  constructor
  · refine ⟨"'>" ++ ("<h3>" ++ (htmlEscape op.title ++ ("</h3>" ++ ("<p>" ++
      (short_desc op.description ++ ("</p>" ++ ("<div class='vol-meta'>" ++
      (htmlEscape op.location ++ (" • " ++ (htmlEscape op.timeframe ++
      ("</div>" ++ "</a>"))))))))))), ?_⟩
    simp only [cardHtml, String.append_assoc]
  · intro c hc
    simp only [cardHtml, String.data_append, List.mem_append]
    tauto

/-- Witness for C10: the apostrophe and the angle bracket of a concrete id
reach the emitted markup unmodified. -/
theorem card_href_raw_id_witness :
    Char.ofNat 39 ∈ (cardHtml opB 3).data ∧ ('<') ∈ (cardHtml opB 3).data :=
  ⟨(card_href_raw_id opB 3).2 (Char.ofNat 39) (by decide),
   (card_href_raw_id opB 3).2 ('<') (by decide)⟩
